import Mathlib

/-!
Verification of the incremental Excel-to-PostgreSQL synchronization engine.

The development shallowly embeds the engine's components:
text normalization (`_normalize_text` in `db/insertion_upsert.py`),
validation (`validate_and_clean_data` in `main_orchestrator.py`),
anchor location (the cut-locating block of `export_excel_to_postgres`),
change tracking (`track_changes` in `upsert/tracker_changes.py`),
batched transactional writing (`insert_new_modified_records`), and the
orchestrator's control flow including its global quarantine slot and the
always-executed reporting step.
-/

namespace ETLSync

/-!  ## Character and string model

Python strings are modelled as lists over an alphabet that represents the
Unicode phenomena the code manipulates: plain letters in both cases,
precomposed accented letters (which NFKD splits into a base letter plus a
combining mark), standalone combining marks, spacing-modifier characters
such as U+00A8 DIAERESIS (whose NFKD decomposition is a SPACE followed by
a combining mark, so diacritic-stripping can create new whitespace),
digits, whitespace, and a catch-all `other` constructor for codepoints with
no decomposition, no case and no whitespace property (punctuation and the
like).  -/

inductive Ch
  | base (n : Fin 26)      -- uppercase unaccented letter A..Z
  | small (n : Fin 26)     -- lowercase unaccented letter a..z
  | accBase (n : Fin 26)   -- uppercase letter with a diacritic (e.g. Á)
  | accSmall (n : Fin 26)  -- lowercase letter with a diacritic (e.g. á)
  | mark                   -- combining diacritical mark (e.g. U+0301)
  | spacing                -- spacing modifier, NFKD = space + mark (e.g. U+00A8)
  | digit (d : Fin 10)
  | sp                     -- space
  | tab                    -- tab (another whitespace character)
  | other (n : Nat)        -- any other codepoint: no case, no decomposition
deriving DecidableEq

/-- Python `str.isspace` / the whitespace set used by `str.split` and
`str.strip`. -/
def Ch.isSpace : Ch → Bool
  | Ch.sp => true
  | Ch.tab => true
  | _ => false

/-- `unicodedata.normalize("NFKD", ·)` on one character: precomposed accented
letters decompose into the base letter followed by a combining mark; a
spacing modifier such as U+00A8 decomposes into a SPACE followed by a
combining mark (U+0020 U+0308); every other character of the alphabet is
its own decomposition. -/
def nfkdCh : Ch → List Ch
  | Ch.accBase n => [Ch.base n, Ch.mark]
  | Ch.accSmall n => [Ch.small n, Ch.mark]
  | Ch.spacing => [Ch.sp, Ch.mark]
  | Ch.base n => [Ch.base n]
  | Ch.small n => [Ch.small n]
  | Ch.mark => [Ch.mark]
  | Ch.digit d => [Ch.digit d]
  | Ch.sp => [Ch.sp]
  | Ch.tab => [Ch.tab]
  | Ch.other n => [Ch.other n]

/-- `unicodedata.combining(c) != 0`. -/
def combiningCh : Ch → Bool
  | Ch.mark => true
  | _ => false

/-- `str.upper` on one character. -/
def chUpper : Ch → Ch
  | Ch.small n => Ch.base n
  | Ch.accSmall n => Ch.accBase n
  | c => c

/-- `str.lower` on one character. -/
def chLower : Ch → Ch
  | Ch.base n => Ch.small n
  | Ch.accBase n => Ch.accSmall n
  | c => c

/-- Worker for Python `str.split()` (split on whitespace runs, dropping empty
pieces).  `acc` holds the reversed current word. -/
def wordsAux : List Ch → List Ch → List (List Ch)
  | [], acc => if acc = [] then [] else [acc.reverse]
  | c :: cs, acc =>
    if c.isSpace then
      if acc = [] then wordsAux cs [] else acc.reverse :: wordsAux cs []
    else
      wordsAux cs (c :: acc)

/-- Python `value.strip().split()`: the whitespace-separated words of a
string (`strip` is subsumed by `split()` with no argument). -/
def pyWords (s : List Ch) : List (List Ch) := wordsAux s []

/-- Python `" ".join(ws)`. -/
def joinSp : List (List Ch) → List Ch
  | [] => []
  | [w] => w
  | w :: ws => w ++ Ch.sp :: joinSp ws

/-- NFKD-decompose a string and drop combining characters, i.e. the
generator expression in `_normalize_text`:
`"".join(ch for ch in unicodedata.normalize("NFKD", cleaned)
         if not unicodedata.combining(ch))`. -/
def stripMarks (l : List Ch) : List Ch :=
  (l.flatMap nfkdCh).filter (fun c => !combiningCh c)

/-- The whole string pipeline of `_normalize_text` applied after whitespace
collapsing: decompose, strip diacritics, uppercase. -/
def wordNorm (w : List Ch) : List Ch :=
  (stripMarks w).map chUpper

/-- The lowercase variant of the tail of the pipeline (`to_upper=False`). -/
def wordNormLower (w : List Ch) : List Ch :=
  (stripMarks w).map chLower

/-- Normalization of a string value, `db/insertion_upsert.py` lines 50-57:
trim, collapse internal whitespace runs to one space, NFKD-decompose,
drop combining marks, convert case. -/
def normStr (to_upper : Bool) (s : List Ch) : List Ch :=
  let cleaned := joinSp (pyWords s)
  if to_upper then wordNorm cleaned else wordNormLower cleaned

/-!  ## Values

Cell values of the source table and of the store, covering the types the
code distinguishes: strings, numbers (modelled over `ℚ`), float NaN,
timestamps (a day index plus a time-of-day), dates, and Python `None`. -/

inductive Val
  | str (s : List Ch)
  | num (q : Rat)
  | nan
  | ts (day : Int) (time : Nat)
  | date (day : Int)
  | none
deriving DecidableEq

/-- `_normalize_text(value, to_upper)` (`db/insertion_upsert.py` lines
15-57): `None` and non-string values pass through unchanged; strings go
through `normStr`. -/
def _normalize_text (v : Val) (to_upper : Bool) : Val :=
  match v with
  | Val.str s => Val.str (normStr to_upper s)
  | v => v

/-- Whether a value is a Python `str`. -/
def isStrVal : Val → Bool
  | Val.str _ => true
  | _ => false

/-- The string of a string value (`[]` otherwise); used to state premises
about the string content of a value. -/
def strOf : Val → List Ch
  | Val.str s => s
  | _ => []

/-!  ## Numeric coercion (`pd.to_numeric(·, errors="coerce")`)  -/

/-- Parse a run of digit characters into a number; any non-digit makes the
whole string unparseable. -/
def parseDigitsAux : List Ch → Nat → Option Nat
  | [], acc => Option.some acc
  | Ch.digit d :: cs, acc => parseDigitsAux cs (acc * 10 + d.val)
  | _, _ => Option.none

/-- Parse a textual number.  Models the numeric-literal parsing pandas
applies to strings: a nonempty digit string parses to its value, anything
else is unparseable. -/
def parseNumStr (s : List Ch) : Option Rat :=
  match s with
  | [] => Option.none
  | _ => (parseDigitsAux s 0).map (fun n => (n : Rat))

/-- Elementwise `pd.to_numeric(·, errors="coerce")`: numbers stay, parseable
strings become numbers, everything else degrades to NaN (never raises). -/
def coerce_numeric (v : Val) : Val :=
  match v with
  | Val.num q => Val.num q
  | Val.str s =>
    match parseNumStr s with
    | Option.some q => Val.num q
    | Option.none => Val.nan
  | _ => Val.nan

/-- `None if pd.isna(x) else x`: collapse the NULL-ish representations
(float NaN, `None`) to the single sentinel `None`, as done on both sides of
the comparison in `track_changes` and by `.where(pd.notna(df), None)` in
`insert_new_modified_records`. -/
def nanToNone (v : Val) : Val :=
  match v with
  | Val.nan => Val.none
  | v => v

/-!  ## Records and tables

A record (pandas row) is an ordered association of column names to values;
a table is a list of records.  Columns are consistent across rows
(rectangular), mirroring the DataFrame invariant. -/

/-- One source or stored record. -/
abbrev Row := List (String × Val)

/-- `row.get(col)` / `row[col]` by label: first matching column. -/
def rowGet (r : Row) (c : String) : Option Val :=
  (r.find? (fun p => p.1 = c)).map Prod.snd

/-- `df.columns` of a rectangular table: the column labels of its rows. -/
def dfCols : List Row → List String
  | [] => []
  | r :: _ => r.map Prod.fst

/-- The anchor / uniqueness column, `id_column = "no de transferencia"`. -/
def idColumn : String := "no de transferencia"

/-- The string `"N/A"`, the default of `row.get("no de transferencia", "N/A")`
in `validate_and_clean_data`. -/
def strNA : List Ch := [Ch.base 13, Ch.other 47, Ch.base 0]

/-!  ## Validator (`validate_and_clean_data`, `main_orchestrator.py` 81-140) -/

/-- The per-field problem detection of `validate_and_clean_data`: NaN/None
(`pd.isna(value) or value is None`), and blank strings
(`isinstance(value, str) and value.strip() == ""`).  The numeric-NaN branch
(`np.isnan(float(value))`) is subsumed: a float NaN is already `pd.isna`.
Returns the issue text appended to the column name, if any. -/
def issueOf (v : Val) : Option String :=
  match v with
  | Val.nan => Option.some "NaN/None"
  | Val.none => Option.some "NaN/None"
  | Val.str s => if s.all Ch.isSpace then Option.some "string vacio" else Option.none
  | _ => Option.none

/-- `row_issues` for one record: one message per problematic field, in
column order. -/
def rowIssues (r : Row) : List String :=
  r.foldr
    (fun p acc =>
      match issueOf p.2 with
      | Option.some m => (p.1 ++ ": " ++ m) :: acc
      | Option.none => acc)
    []

/-- One entry of the `problematic_records` list: the dict
`{"index": ..., "no_transferencia": ..., "issues": ..., "sheet": ...}`. -/
structure ProblemRec where
  index : Nat
  no_transferencia : Val
  issues : List String
  sheet : String
deriving DecidableEq

/-- Build the problematic-record dict for the record at position `i`. -/
def mkProblem (sheet : String) (i : Nat) (r : Row) : ProblemRec :=
  { index := i
    no_transferencia := (rowGet r idColumn).getD (Val.str strNA)
    issues := rowIssues r
    sheet := sheet }

/-- Loop of `validate_and_clean_data`: walk the records with their
positional index, sending issue-free records to the clean output (kept
unchanged, in order) and the others to the problematic list. -/
def validateAux (sheet : String) : Nat → List Row → List Row × List ProblemRec
  | _, [] => ([], [])
  | i, r :: rs =>
    let rest := validateAux sheet (i + 1) rs
    if (rowIssues r).isEmpty then (r :: rest.1, rest.2)
    else (rest.1, mkProblem sheet i r :: rest.2)

/-- `validate_and_clean_data(df, sheet_name)`: partition the records into
`(df_clean, problematic_records)`.  The DataFrame index is modelled
positionally from 0. -/
def validate_and_clean_data (rows : List Row) (sheet : String) :
    List Row × List ProblemRec :=
  validateAux sheet 0 rows

/-!  ## Anchor locator (`export_excel_to_postgres`, lines 266-330) -/

/-- Persisted-state tag returned by `get_last_transfer_id`
(`utils/table_state.py`): `"ok"`, `"empty"`, `"not_found"` or `"error"`. -/
inductive DbStatus
  | ok
  | empty
  | notFound
  | error
deriving DecidableEq

/-- The typed failures of a run (the `ValueError`s the orchestrator raises,
plus write failures propagated by the batch writer). -/
inductive EtlError
  | unknownSheet
  | storeUnavailable
  | tableNotFound
  | emptySource
  | missingColumn
  | anchorNotFound
  | unexpectedState
  | writeFailure
deriving DecidableEq

/-- `df_excel[id_column] = pd.to_numeric(df_excel[id_column], errors="coerce")`
restricted to one row: coerce the anchor column, leave the rest. -/
def coerceAnchorCol (idc : String) (r : Row) : Row :=
  r.map (fun p => if p.1 = idc then (p.1, coerce_numeric p.2) else p)

/-- Whether row `i` of the table satisfies the boolean mask
`df_reset[id_column] == last_transfer_id` (NaN compares unequal to
everything, as in pandas). -/
def anchorMatchesAt (rows : List Row) (idc : String) (q : Rat) (i : Nat) : Bool :=
  match rows.get? i with
  | Option.some r =>
    match rowGet r idc with
    | Option.some (Val.num x) => decide (x = q)
    | _ => false
  | Option.none => false

/-- `matching_indices = df_reset.index[df_reset[id_column] == last_transfer_id]`:
the 0-based row positions whose coerced anchor equals the stored last
anchor, in increasing order. -/
def matchingIndices (rows : List Row) (idc : String) (q : Rat) : List Nat :=
  (List.range rows.length).filter (anchorMatchesAt rows idc q)

/-- Result of the cut-locating step. -/
inductive LocateResult
  | ok (rows : List Row)
  | error (e : EtlError)
deriving DecidableEq

/-- The cut-locating block (lines 271-330), branching exactly as the code:
`if last_transfer_id is not None and db_status == "ok"` — coerce the anchor
column again, collect the matching indices, fail with the anchor-not-found
error when there are none, otherwise cut at the last match
(`matching_indices[-1]`) and keep everything strictly after
(`df_reset.iloc[last_match_index + 1:]`); `elif db_status == "empty"` — every
row is a candidate; anything else is the "Estado inesperado" failure. -/
def locate_cut (rows : List Row) (idc : String) (lastId : Option Rat)
    (status : DbStatus) : LocateResult :=
  match lastId, status with
  | Option.some q, DbStatus.ok =>
    let rowsC := rows.map (coerceAnchorCol idc)
    match (matchingIndices rowsC idc q).getLast? with
    | Option.none => LocateResult.error EtlError.anchorNotFound
    | Option.some cut => LocateResult.ok (rowsC.drop (cut + 1))
  | _, DbStatus.empty => LocateResult.ok rows
  | _, _ => LocateResult.error EtlError.unexpectedState

/-!  ## Change tracker (`upsert/tracker_changes.py`) -/

/-- `records_dict[record_id]` on the association list of stored records. -/
def lookupRec (d : List (Val × Row)) (k : Val) : Option Row :=
  (d.find? (fun p => p.1 = k)).map Prod.snd

/-- The inner comparison loop of `track_changes`: a record is modified when
some column of the Excel table differs from the stored record after
collapsing NULL-ish values to `None` on both sides (`valor_excel` vs
`valor_bd`); the loop early-exits on the first difference, which `List.any`
mirrors.  Raw strings are compared as-is: no text normalization happens
here. -/
def rowModified (cols : List String) (row bd : Row) : Bool :=
  cols.any (fun c =>
    let ve := nanToNone ((rowGet row c).getD Val.none)
    let vb := nanToNone ((rowGet bd c).getD Val.none)
    decide (ve ≠ vb))

/-- Collect `modified_ids` row by row; a missing stored record is a
`KeyError`, modelled as `Option.none` (the code fails loudly there). -/
def collectModified (cols : List String) (idc : String) (d : List (Val × Row)) :
    List Row → Option (List Val)
  | [] => Option.some []
  | r :: rs =>
    let recordId := (rowGet r idc).getD Val.none
    match lookupRec d recordId with
    | Option.none => Option.none
    | Option.some bd =>
      (collectModified cols idc d rs).map
        (fun rest => if rowModified cols r bd then recordId :: rest else rest)

/-- `track_changes(df_existing, records_dict, id_column)`: the subset of
`df_existing` whose id is in `modified_ids`
(`df_existing[df_existing[id_column].isin(modified_ids)]`), or `none` when a
lookup raises `KeyError`. -/
def track_changes (df : List Row) (d : List (Val × Row)) (idc : String) :
    Option (List Row) :=
  (collectModified (dfCols df) idc d df).map
    (fun ids => df.filter (fun r => ids.contains ((rowGet r idc).getD Val.none)))

/-!  ## Batch writer (`db/insertion_upsert.py`)

The store is modelled by the tuples committed through the insert statement
and through the update statement.  `engine.begin()` (SQLAlchemy) opens a
transaction that commits the pending writes when the block exits normally
and discards them when the block raises; `conn.exec_driver_sql` appends one
batch of tuples to the pending writes, or raises — failure is injected
through `StoreBehavior`, which stands for the external store's behavior
during the call. -/

/-- Committed state of the store: tuples written by INSERT statements and
tuples bound to UPDATE statements. -/
structure DB where
  inserted : List (List Val)
  updated : List (List Val)
deriving DecidableEq

/-- External store behavior for one call: whether `configPostgre()` yields
an engine, and the batch index (per statement kind, 0-based) at which
`exec_driver_sql` raises, if any. -/
structure StoreBehavior where
  engineOk : Bool
  failInsertAt : Option Nat
  failUpdateAt : Option Nat
deriving DecidableEq

/-- `NUMERIC_COLUMNS` (`db/insertion_upsert.py` line 12). -/
def NUMERIC_COLUMNS : List String := ["importe", "año", "no_de_transferencia"]

/-- `_clean_numeric_columns`: numeric coercion of the designated columns,
invalid values degrade to NaN. -/
def _clean_numeric_columns (df : List Row) (cols : List String) : List Row :=
  df.map (fun r =>
    r.map (fun p => if cols.contains p.1 then (p.1, coerce_numeric p.2) else p))

/-- `_convert_timestamp_to_date`: timestamp values lose their time of day. -/
def _convert_timestamp_to_date (df : List Row) : List Row :=
  df.map (fun r =>
    r.map (fun p =>
      match p.2 with
      | Val.ts day _ => (p.1, Val.date day)
      | v => (p.1, v)))

/-- `_normalize_dataframe`: `_normalize_text(·, to_upper=True)` applied to
the text cells (non-strings pass through `_normalize_text` unchanged, so
applying it to every cell is extensionally the object-columns loop). -/
def _normalize_dataframe (df : List Row) : List Row :=
  df.map (fun r => r.map (fun p => (p.1, _normalize_text p.2 true)))

/-- The shared data-preparation pipeline of `insert_new_modified_records`:
numeric cleaning, timestamp truncation, text normalization, and
`.where(pd.notna(df), None)`. -/
def preparePipeline (df : List Row) : List Row :=
  (_normalize_dataframe (_convert_timestamp_to_date
      (_clean_numeric_columns df NUMERIC_COLUMNS))).map
    (fun r => r.map (fun p => (p.1, nanToNone p.2)))

/-- `data = [tuple(row) for row in df_clean.values]` for the INSERT path. -/
def insertData (df : List Row) : List (List Val) :=
  (preparePipeline df).map (fun r => r.map Prod.snd)

/-- The UPDATE path tuples: values of the non-id columns followed by the id
(`values.append(row[id_column])`). -/
def updateData (df : List Row) (idc : String) : List (List Val) :=
  (preparePipeline df).map (fun r =>
    ((r.filter (fun p => p.1 ≠ idc)).map Prod.snd) ++
      [(rowGet r idc).getD Val.none])

/-- The batch count of `range(0, n, bs)` for `bs > 0`: `⌈n / bs⌉`. -/
def numBatches (n bs : Nat) : Nat := (n + bs - 1) / bs

/-- The batches of the loop
`for i in range(0, len(data), batch_size): batch = data[i:i+batch_size]`. -/
def batchesOf (data : List (List Val)) (bs : Nat) : List (List (List Val)) :=
  (List.range (numBatches data.length bs)).map
    (fun k => (data.drop (k * bs)).take bs)

/-- Outcome of running the batch loop inside one `engine.begin()` block:
either every `exec_driver_sql` succeeded and `pending` holds all tuples
written within the transaction (with `total` the final progress counter),
or some batch raised, aborting the loop. -/
inductive ExecResult
  | done (pending : List (List Val)) (total : Nat)
  | failed (total : Nat)
deriving DecidableEq

/-- The batch loop body: execute batches in order, accumulating the pending
transactional writes and the `total_inserted`/`total_updated` counter;
`exec_driver_sql` raises at the injected batch index. -/
def execLoop (failAt : Option Nat) :
    Nat → List (List Val) → Nat → List (List (List Val)) → ExecResult
  | _, pending, total, [] => ExecResult.done pending total
  | i, pending, total, b :: bs =>
    if failAt = Option.some i then ExecResult.failed total
    else execLoop failAt (i + 1) (pending ++ b) (total + b.length) bs

/-- Result of one `insert_new_modified_records` call: the store state after
the call and whether the call raised. -/
structure CallResult where
  db : DB
  raised : Bool
deriving DecidableEq

/-- `insert_new_modified_records(df_new, df_modified, table_name, id_column)`
(`db/insertion_upsert.py` lines 175-277).  A missing engine raises before
touching the store.  The INSERT section prepares the new records and runs
all its batches inside a single `engine.begin()` transaction: on success the
pending tuples commit, on a batch failure the transaction rolls back (the
store keeps its prior state) and the exception propagates, skipping the
UPDATE section.  The UPDATE section does the same for the modified records
in its own transaction. -/
def insert_new_modified_records (df_new df_modified : List Row)
    (_table_name idc : String) (db : DB) (sb : StoreBehavior) : CallResult :=
  if sb.engineOk = false then { db := db, raised := true }
  else
    let afterInsert : DB × Bool :=
      if df_new.isEmpty then (db, false)
      else
        match execLoop sb.failInsertAt 0 [] 0 (batchesOf (insertData df_new) 1000) with
        | ExecResult.done pending _ =>
          ({ db with inserted := db.inserted ++ pending }, false)
        | ExecResult.failed _ => (db, true)
    if afterInsert.2 then { db := afterInsert.1, raised := true }
    else if df_modified.isEmpty then { db := afterInsert.1, raised := false }
    else
      match execLoop sb.failUpdateAt 0 [] 0
          (batchesOf (updateData df_modified idc) 1000) with
      | ExecResult.done pending _ =>
        { db := { afterInsert.1 with updated := afterInsert.1.updated ++ pending }
          raised := false }
      | ExecResult.failed _ => { db := afterInsert.1, raised := true }

/-!  ## Sync orchestrator (`export_excel_to_postgres`,
`main_orchestrator.py` lines 143-467)

One run is a function of: the process-global state (the quarantine slot
`problematic_records_global`, which the code reads in the `finally` block
and never resets at the start of a run), the store state, and the run's
external inputs (sheet name, `get_last_transfer_id` result, the loaded
Excel table, the interactive confirmation, and the store behavior during
the write call).  Every exit path of the `try` body flows into the
`finally` block, which builds the email report and sends it. -/

/-- The process-global mutable state: `globals()["problematic_records_global"]`.
`Option.none` models the name being absent (first run of the process). -/
structure Globals where
  problematic_records_global : Option (List ProblemRec)
deriving DecidableEq

/-- The status report assembled in the `finally` block and handed to
`send_email_report`. -/
structure Report where
  success : Bool
  rowsInserted : Nat
  problematic : List ProblemRec
  errMsg : Option EtlError
deriving DecidableEq

/-- Externally visible actions of a run; the terminal reporting step is the
`send_email_report` call. -/
inductive Action
  | sendEmail (rep : Report)
deriving DecidableEq

/-- External inputs of one run. -/
structure Inputs where
  sheet : String
  lastTransferId : Option Rat
  dbStatus : DbStatus
  excel : Option (List Row)
  userConfirms : Bool
  store : StoreBehavior
deriving DecidableEq

/-- State of the run when the `try` body is left (normally or by a caught
exception): `ejecucion_exitosa`, `error_message`, `rows_inserted`, and the
globals and store as the body left them. -/
structure BodyResult where
  exitosa : Bool
  errMsg : Option EtlError
  rowsInserted : Nat
  g : Globals
  db : DB
deriving DecidableEq

/-- Whether the sheet name is one of the two recognized sheets
(lines 221-232). -/
def sheetRecognized (s : String) : Bool :=
  s = "COMISIONES" || s = "COBRANZA"

/-- The `try` body of `export_excel_to_postgres` (lines 206-392), with every
`return` and every raised-and-caught exception reflected in the
`BodyResult`:
unrecognized sheet → early return with `error_message` set;
store state `error`/`not_found` → raise;
empty or unreadable Excel → raise; missing anchor column → raise;
otherwise coerce the anchor column (line 267) and locate the cut;
no candidates → successful no-op return (the quarantine slot untouched);
all candidates problematic → successful return, quarantine slot set;
user declines → plain return (not successful, no error message, slot
untouched — line 370 precedes the assignment at line 375);
otherwise store the quarantined records in the global slot and run the
write call: a raise there leaves `rows_inserted` at 0. -/
def runBody (g : Globals) (db : DB) (inp : Inputs) : BodyResult :=
  if sheetRecognized inp.sheet = false then
    { exitosa := false, errMsg := Option.some EtlError.unknownSheet
      rowsInserted := 0, g := g, db := db }
  else if inp.dbStatus = DbStatus.error then
    { exitosa := false, errMsg := Option.some EtlError.storeUnavailable
      rowsInserted := 0, g := g, db := db }
  else if inp.dbStatus = DbStatus.notFound then
    { exitosa := false, errMsg := Option.some EtlError.tableNotFound
      rowsInserted := 0, g := g, db := db }
  else
    match inp.excel with
    | Option.none =>
      { exitosa := false, errMsg := Option.some EtlError.emptySource
        rowsInserted := 0, g := g, db := db }
    | Option.some rows =>
      if rows.isEmpty then
        { exitosa := false, errMsg := Option.some EtlError.emptySource
          rowsInserted := 0, g := g, db := db }
      else if (dfCols rows).contains idColumn = false then
        { exitosa := false, errMsg := Option.some EtlError.missingColumn
          rowsInserted := 0, g := g, db := db }
      else
        let df2 := rows.map (coerceAnchorCol idColumn)
        match locate_cut df2 idColumn inp.lastTransferId inp.dbStatus with
        | LocateResult.error e =>
          { exitosa := false, errMsg := Option.some e
            rowsInserted := 0, g := g, db := db }
        | LocateResult.ok cands =>
          if cands.isEmpty then
            { exitosa := true, errMsg := Option.none
              rowsInserted := 0, g := g, db := db }
          else
            let vr := validate_and_clean_data cands inp.sheet
            if vr.1.isEmpty then
              { exitosa := true, errMsg := Option.none, rowsInserted := 0
                g := { problematic_records_global := Option.some vr.2 }, db := db }
            else if inp.userConfirms = false then
              { exitosa := false, errMsg := Option.none
                rowsInserted := 0, g := g, db := db }
            else
              let g2 : Globals := { problematic_records_global := Option.some vr.2 }
              let wr := insert_new_modified_records vr.1 [] "tabla" idColumn db inp.store
              if wr.raised then
                { exitosa := false, errMsg := Option.some EtlError.writeFailure
                  rowsInserted := 0, g := g2, db := wr.db }
              else
                { exitosa := true, errMsg := Option.none
                  rowsInserted := vr.1.length, g := g2, db := wr.db }

/-- Result of one full run. -/
structure RunResult where
  g : Globals
  db : DB
  report : Report
  actions : List Action
deriving DecidableEq

/-- `export_excel_to_postgres(sheet_name, excel_path)`: run the `try` body,
then the `finally` block — read the quarantined records from the global
slot (`globals().get("problematic_records_global", [])`), assemble the
status report, and send it.  The report is sent on every path. -/
def export_excel_to_postgres (g : Globals) (db : DB) (inp : Inputs) : RunResult :=
  let b := runBody g db inp
  let rep : Report :=
    { success := b.exitosa
      rowsInserted := b.rowsInserted
      problematic := b.g.problematic_records_global.getD []
      errMsg := b.errMsg }
  { g := b.g, db := b.db, report := rep, actions := [Action.sendEmail rep] }

/-!  ## Derived notions and concrete instances used in the statements -/

/-- Characters fixed by the whole normalization pipeline: not whitespace,
self-decomposing, non-combining and case-stable. -/
def stableCh : Ch → Bool
  | Ch.base _ => true
  | Ch.digit _ => true
  | Ch.other _ => true
  | _ => false

/-- A one-column row holding only the anchor. -/
def mkNumRow (k : Rat) : Row := [(idColumn, Val.num k)]

/-- Ten source rows whose anchor values are
`[1, 2, 3, 42, 5, 6, 7, 42, 9, 10]`: the stored anchor 42 occurs at
positions 3 and 7. -/
def c2rows : List Row :=
  [mkNumRow 1, mkNumRow 2, mkNumRow 3, mkNumRow 42, mkNumRow 5,
   mkNumRow 6, mkNumRow 7, mkNumRow 42, mkNumRow 9, mkNumRow 10]

/-- Fresh process-global state (the slot never written yet). -/
def g0run : Globals := { problematic_records_global := Option.none }

/-- An empty store. -/
def db0run : DB := { inserted := [], updated := [] }

/-- A store that accepts every statement. -/
def sb0ok : StoreBehavior :=
  { engineOk := true, failInsertAt := Option.none, failUpdateAt := Option.none }

/-- Inputs of a run whose stored anchor (999) occurs nowhere in the two
source rows. -/
def inpC1w : Inputs :=
  { sheet := "COBRANZA", lastTransferId := Option.some 999
    dbStatus := DbStatus.ok, excel := Option.some [mkNumRow 1, mkNumRow 2]
    userConfirms := true, store := sb0ok }

/-- A candidate record with a `None` field (quarantined by validation). -/
def badRowW : Row := [(idColumn, Val.num 7), ("x", Val.none)]

/-- First run of the stale-quarantine scenario: empty store state, a single
all-problematic candidate, so the run ends successfully with the quarantine
slot set. -/
def inpQ1w : Inputs :=
  { sheet := "COBRANZA", lastTransferId := Option.none
    dbStatus := DbStatus.empty, excel := Option.some [badRowW]
    userConfirms := true, store := sb0ok }

/-- Second run of the stale-quarantine scenario: the store state query
fails, so the run fails before reaching its own validation step. -/
def inpErrW : Inputs :=
  { sheet := "COBRANZA", lastTransferId := Option.none
    dbStatus := DbStatus.error, excel := Option.none
    userConfirms := false, store := sb0ok }

/-- One clean record for the batch-failure scenario. -/
def c5row : Row := [(idColumn, Val.num 1)]

/-- 2500 clean records. -/
def c5rows : List Row := List.replicate 2500 c5row

/-- A store whose `exec_driver_sql` raises on the second insert batch
(0-based batch index 1, i.e. rows 1001-2000). -/
def sbC5 : StoreBehavior :=
  { engineOk := true, failInsertAt := Option.some 1, failUpdateAt := Option.none }

/-- Inputs of the batch-failure scenario: empty store state (every source
row is a candidate), 2500 clean records, confirmed, failure forced on the
second insert batch. -/
def inpC5 : Inputs :=
  { sheet := "COBRANZA", lastTransferId := Option.none
    dbStatus := DbStatus.empty, excel := Option.some c5rows
    userConfirms := true, store := sbC5 }

/-- The string `"ángel"` (accented, lowercase). -/
def sAngelL : List Ch :=
  [Ch.accSmall 0, Ch.small 13, Ch.small 6, Ch.small 4, Ch.small 11]

/-- The string `"ANGEL"` (unaccented, uppercase). -/
def sANGEL2 : List Ch :=
  [Ch.base 0, Ch.base 13, Ch.base 6, Ch.base 4, Ch.base 11]

/-- Source record whose name field is the raw string `"ángel"`. -/
def c6row : Row := [(idColumn, Val.num 1), ("nombre", Val.str sAngelL)]

/-- Stored record with the same id whose name field is `"ANGEL"` — equal to
the source value after normalization, different raw. -/
def c6bd : Row := [(idColumn, Val.num 1), ("nombre", Val.str sANGEL2)]

/-- The string `"a ́ b"`: its middle whitespace-separated word is a lone
combining mark, which diacritic-stripping removes entirely. -/
def sLoneMark : List Ch := [Ch.small 0, Ch.sp, Ch.mark, Ch.sp, Ch.small 1]

/-- The string `"a¨"` (letter followed by U+00A8 DIAERESIS): its single
word keeps a character after diacritic-stripping, but the decomposition of
U+00A8 leaves a space behind. -/
def sSpacing : List Ch := [Ch.small 0, Ch.spacing]

/-- A source record whose second field is float NaN: raw-different from but
NULL-equivalent to the stored `None`. -/
def c6rawRow : Row := [(idColumn, Val.num 2), ("nombre", Val.nan)]

/-- The stored record matching `c6rawRow` up to NULL normalization. -/
def c6rawBd : Row := [(idColumn, Val.num 2), ("nombre", Val.none)]

/-- The string `"  ángel  maximo "`, a well-behaved input for the
idempotence witness. -/
def sMessy : List Ch :=
  [Ch.sp, Ch.sp, Ch.accSmall 0, Ch.small 13, Ch.small 6, Ch.small 4,
   Ch.small 11, Ch.sp, Ch.tab, Ch.small 12, Ch.small 0, Ch.small 23,
   Ch.small 8, Ch.small 12, Ch.small 14, Ch.sp]

/-!  ## Lemmas about the normalization pipeline -/

theorem stripMarks_append (a b : List Ch) :
    stripMarks (a ++ b) = stripMarks a ++ stripMarks b := by
  simp [stripMarks]

theorem wordNorm_append (a b : List Ch) :
    wordNorm (a ++ b) = wordNorm a ++ wordNorm b := by
  simp [wordNorm, stripMarks_append]

theorem wordNorm_cons (a : Ch) (l : List Ch) :
    wordNorm (a :: l) = wordNorm [a] ++ wordNorm l := by
  rw [← wordNorm_append]
  rfl

theorem joinSp_cons_cons (w w2 : List Ch) (ws : List (List Ch)) :
    joinSp (w :: w2 :: ws) = w ++ Ch.sp :: joinSp (w2 :: ws) := rfl

/-- The character pipeline distributes over `" ".join`, because a space is
fixed by decomposition, survives the combining filter, and is fixed by
uppercasing. -/
theorem wordNorm_joinSp (ws : List (List Ch)) :
    wordNorm (joinSp ws) = joinSp (ws.map wordNorm) := by
  induction ws with
  | nil => rfl
  | cons w ws ih =>
    cases ws with
    | nil => rfl
    | cons w2 ws2 =>
      rw [joinSp_cons_cons, show (Ch.sp :: joinSp (w2 :: ws2)) =
          [Ch.sp] ++ joinSp (w2 :: ws2) from rfl,
        wordNorm_append, wordNorm_append, ih]
      simp only [List.map_cons]
      rw [joinSp_cons_cons, show wordNorm [Ch.sp] = [Ch.sp] from rfl]
      simp

theorem stable_not_space (c : Ch) (h : stableCh c = true) : c.isSpace = false := by
  cases c <;> simp_all [stableCh, Ch.isSpace]

theorem wordNorm_singleton_stable (c : Ch) (h : stableCh c = true) :
    wordNorm [c] = [c] := by
  cases c <;> simp_all [wordNorm, stripMarks, nfkdCh, combiningCh, chUpper, stableCh]

theorem wordNorm_of_stable (w : List Ch) (h : ∀ c ∈ w, stableCh c = true) :
    wordNorm w = w := by
  induction w with
  | nil => rfl
  | cons c cs ih =>
    rw [wordNorm_cons, wordNorm_singleton_stable c (h c (by simp)),
      ih (fun x hx => h x (by simp [hx]))]
    rfl

/-- Every character produced by the pipeline from one space-free character
is stable or a space — a space appears exactly when the character's NFKD
decomposition contains one, as for U+00A8. -/
theorem stable_of_wordNorm_single (a : Ch) (ha : a.isSpace = false) :
    ∀ c ∈ wordNorm [a], stableCh c = true ∨ c = Ch.sp := by
  intro c hc
  cases a <;>
    simp [wordNorm, stripMarks, nfkdCh, combiningCh, chUpper, Ch.isSpace]
      at hc ha <;>
    simp [hc, stableCh]

/-- Every character produced by the pipeline from a space-free word is
stable or a space. -/
theorem stable_of_mem_wordNorm (w : List Ch) (hw : ∀ c ∈ w, c.isSpace = false) :
    ∀ c ∈ wordNorm w, stableCh c = true ∨ c = Ch.sp := by
  induction w with
  | nil => intro c hc; simp [wordNorm, stripMarks] at hc
  | cons a as ih =>
    intro c hc
    rw [wordNorm_cons] at hc
    rcases List.mem_append.mp hc with h1 | h2
    · exact stable_of_wordNorm_single a (hw a (by simp)) c h1
    · exact ih (fun x hx => hw x (by simp [hx])) c h2

/-- Words coming out of `str.split()` are nonempty and space-free. -/
theorem wordsAux_words (s : List Ch) :
    ∀ acc, (∀ c ∈ acc, c.isSpace = false) →
      ∀ w ∈ wordsAux s acc, w ≠ [] ∧ ∀ c ∈ w, c.isSpace = false := by
  induction s with
  | nil =>
    intro acc hacc w hw
    by_cases h : acc = []
    · simp [wordsAux, h] at hw
    · simp only [wordsAux, if_neg h, List.mem_singleton] at hw
      subst hw
      refine ⟨by simpa using h, fun c hc => hacc c (List.mem_reverse.mp hc)⟩
  | cons a as ih =>
    intro acc hacc w hw
    by_cases hsp : a.isSpace
    · by_cases h : acc = []
      · simp only [wordsAux, hsp, if_true, h, if_pos rfl] at hw
        exact ih [] (by simp) w (by simpa [h] using hw)
      · simp only [wordsAux, hsp, if_true, if_neg h, List.mem_cons] at hw
        rcases hw with hw | hw
        · subst hw
          refine ⟨by simpa using h, fun c hc => hacc c (List.mem_reverse.mp hc)⟩
        · exact ih [] (by simp) w hw
    · simp only [wordsAux, hsp, if_false] at hw
      refine ih (a :: acc) ?_ w hw
      intro c hc
      rcases List.mem_cons.mp hc with hc | hc
      · subst hc; simpa using hsp
      · exact hacc c hc

theorem pyWords_words (s : List Ch) :
    ∀ w ∈ pyWords s, w ≠ [] ∧ ∀ c ∈ w, c.isSpace = false :=
  wordsAux_words s [] (by simp)

/-- Scanning a space-free word prefix just accumulates it. -/
theorem wordsAux_through_word (w : List Ch) (hw : ∀ c ∈ w, c.isSpace = false) :
    ∀ s acc, wordsAux (w ++ s) acc = wordsAux s (w.reverse ++ acc) := by
  induction w with
  | nil => intro s acc; simp
  | cons a as ih =>
    intro s acc
    have ha : a.isSpace = false := hw a (by simp)
    rw [List.cons_append,
      show wordsAux (a :: (as ++ s)) acc = wordsAux (as ++ s) (a :: acc) from by
        simp [wordsAux, ha],
      ih (fun c hc => hw c (by simp [hc])) s (a :: acc)]
    simp

/-- `str.split` is a retraction of `" ".join` on lists of nonempty,
space-free words. -/
theorem pyWords_joinSp (ws : List (List Ch))
    (h : ∀ w ∈ ws, w ≠ [] ∧ ∀ c ∈ w, c.isSpace = false) :
    pyWords (joinSp ws) = ws := by
  induction ws with
  | nil => rfl
  | cons w ws2 ih =>
    obtain ⟨hne, hsp⟩ := h w (by simp)
    cases ws2 with
    | nil =>
      show wordsAux w [] = [w]
      have := wordsAux_through_word w hsp [] []
      rw [List.append_nil] at this
      rw [this]
      simp [wordsAux, hne]
    | cons w2 ws3 =>
      show wordsAux (joinSp (w :: w2 :: ws3)) [] = w :: w2 :: ws3
      rw [joinSp_cons_cons, wordsAux_through_word w hsp]
      rw [show wordsAux (Ch.sp :: joinSp (w2 :: ws3)) (w.reverse ++ []) =
          (w.reverse ++ []).reverse :: wordsAux (joinSp (w2 :: ws3)) [] from by
        simp [wordsAux, Ch.isSpace, hne]]
      rw [show wordsAux (joinSp (w2 :: ws3)) [] = pyWords (joinSp (w2 :: ws3))
          from rfl,
        ih (fun x hx => h x (by simp [hx]))]
      simp

theorem normStr_decomposed (s : List Ch) :
    normStr true s = joinSp ((pyWords s).map wordNorm) := by
  show wordNorm (joinSp (pyWords s)) = _
  rw [wordNorm_joinSp]

theorem map_wordNorm_id (l : List (List Ch)) (h : ∀ w ∈ l, wordNorm w = w) :
    l.map wordNorm = l := by
  induction l with
  | nil => rfl
  | cons x xs ihl =>
    simp [h x (by simp), ihl (fun y hy => h y (by simp [hy]))]

/-- Idempotence of the string pipeline, under the proviso that the
processed form of each whitespace-separated word of the input is nonempty
and contains no whitespace.  Both sides of the proviso are needed: a word
made only of combining marks is erased entirely, and a character whose
NFKD decomposition contains a space (e.g. U+00A8) introduces one — either
way the first pass leaves whitespace the collapse step never saw, and a
second pass differs. -/
theorem normStr_idem_of_words_survive (s : List Ch)
    (h : ∀ w ∈ pyWords s,
      wordNorm w ≠ [] ∧ ∀ c ∈ wordNorm w, c.isSpace = false) :
    normStr true (normStr true s) = normStr true s := by
  rw [normStr_decomposed s]
  have hstable : ∀ w ∈ (pyWords s).map wordNorm, ∀ c ∈ w, stableCh c = true := by
    intro w hw c hc
    rcases List.mem_map.mp hw with ⟨w0, hw0, rfl⟩
    rcases stable_of_mem_wordNorm w0 (pyWords_words s w0 hw0).2 c hc with
      hst | hsp
    · exact hst
    · have h2 := (h w0 hw0).2 c hc
      rw [hsp] at h2
      simp [Ch.isSpace] at h2
  have hprops : ∀ w ∈ (pyWords s).map wordNorm,
      w ≠ [] ∧ ∀ c ∈ w, c.isSpace = false := by
    intro w hw
    rcases List.mem_map.mp hw with ⟨w0, hw0, rfl⟩
    exact ⟨(h w0 hw0).1, (h w0 hw0).2⟩
  rw [normStr_decomposed (joinSp ((pyWords s).map wordNorm)),
    pyWords_joinSp ((pyWords s).map wordNorm) hprops,
    map_wordNorm_id ((pyWords s).map wordNorm)
      (fun w hw => wordNorm_of_stable w (hstable w hw))]

/-!  ## Lemmas about the validator -/

theorem rowIssues_cons (p : String × Val) (ps : Row) :
    rowIssues (p :: ps) =
      match issueOf p.2 with
      | Option.some m => (p.1 ++ ": " ++ m) :: rowIssues ps
      | Option.none => rowIssues ps := rfl

theorem rowIssues_eq_nil_iff (r : Row) :
    rowIssues r = [] ↔ ∀ p ∈ r, issueOf p.2 = Option.none := by
  induction r with
  | nil => simp [rowIssues]
  | cons p ps ih =>
    rw [rowIssues_cons]
    cases h : issueOf p.2 with
    | none => simp [h, ih]
    | some m => simp [h]

/-- Closed form of the validator loop: the clean output is the issue-free
records in order, the problematic output is the annotated offending records
in order. -/
theorem validateAux_eq (sheet : String) (rows : List Row) : ∀ i,
    validateAux sheet i rows =
      (rows.filter (fun r => (rowIssues r).isEmpty),
       ((List.enumFrom i rows).filter
           (fun p => !(rowIssues p.2).isEmpty)).map
         (fun p => mkProblem sheet p.1 p.2)) := by
  induction rows with
  | nil => intro i; rfl
  | cons r rs ih =>
    intro i
    rw [show validateAux sheet i (r :: rs) =
        (if (rowIssues r).isEmpty
         then (r :: (validateAux sheet (i + 1) rs).1,
               (validateAux sheet (i + 1) rs).2)
         else ((validateAux sheet (i + 1) rs).1,
               mkProblem sheet i r :: (validateAux sheet (i + 1) rs).2))
      from rfl]
    rw [ih (i + 1)]
    by_cases h : (rowIssues r).isEmpty = true
    · simp [h, List.enumFrom, List.filter_cons]
    · simp [List.filter_cons, List.enumFrom,
        Bool.eq_false_iff.mpr h]

theorem length_filter_not_add (l : List Row) (p : Row → Bool) :
    (l.filter p).length + (l.filter (fun r => !(p r))).length = l.length := by
  induction l with
  | nil => rfl
  | cons a t ih =>
    by_cases h : p a = true <;>
      simp [List.filter_cons, h] <;> omega

theorem length_filter_enumFrom (p : Row → Bool) (rows : List Row) : ∀ i,
    ((List.enumFrom i rows).filter (fun q => p q.2)).length =
      (rows.filter p).length := by
  induction rows with
  | nil => intro i; rfl
  | cons r rs ih =>
    intro i
    by_cases h : p r = true <;>
      simp [List.enumFrom, List.filter_cons, h, ih]

/-!  ## Lemmas about the anchor locator -/

/-- The last element of a strictly increasing list is its maximum. -/
theorem getLast?_max_of_pairwise_lt (l : List Nat) (h : l.Pairwise (· < ·)) :
    l ≠ [] → ∃ m, l.getLast? = Option.some m ∧ m ∈ l ∧ ∀ x ∈ l, x ≤ m := by
  induction l with
  | nil => intro hne; cases hne rfl
  | cons a t ih =>
    intro _
    cases t with
    | nil => exact ⟨a, rfl, by simp, by simp⟩
    | cons b t2 =>
      obtain ⟨m, hg, hm, hmax⟩ := ih h.of_cons (by simp)
      refine ⟨m, ?_, List.mem_cons_of_mem a hm, ?_⟩
      · rw [List.getLast?_cons_cons]
        exact hg
      · intro x hx
        rcases List.mem_cons.mp hx with rfl | hx2
        · have := (List.pairwise_cons.mp h).1 m hm
          omega
        · exact hmax x hx2

/-- `matching_indices` is strictly increasing (pandas boolean-mask indices
come out in positional order). -/
theorem matchingIndices_pairwise (rows : List Row) (idc : String) (q : Rat) :
    (matchingIndices rows idc q).Pairwise (· < ·) :=
  List.Pairwise.sublist (List.filter_sublist _)
    (List.pairwise_lt_range rows.length)

theorem coerce_numeric_idem (v : Val) :
    coerce_numeric (coerce_numeric v) = coerce_numeric v := by
  cases v with
  | str s => cases h : parseNumStr s <;> simp [coerce_numeric, h]
  | _ => rfl

theorem coerceAnchorCol_idem (idc : String) (r : Row) :
    coerceAnchorCol idc (coerceAnchorCol idc r) = coerceAnchorCol idc r := by
  induction r with
  | nil => rfl
  | cons p ps ih =>
    by_cases h : p.1 = idc <;>
      simp [coerceAnchorCol, h, coerce_numeric_idem] at ih ⊢ <;>
      simpa [coerceAnchorCol] using ih

/-- Coercing the anchor column is idempotent tablewise (the code coerces at
line 267 and again at line 273). -/
theorem map_coerceAnchorCol_idem (idc : String) (rows : List Row) :
    (rows.map (coerceAnchorCol idc)).map (coerceAnchorCol idc) =
      rows.map (coerceAnchorCol idc) := by
  rw [List.map_map]
  induction rows with
  | nil => rfl
  | cons r rs ih =>
    simp only [List.map_cons, Function.comp_apply, coerceAnchorCol_idem]
    rw [ih]

/-- The same idempotence with the composed map (the form `simp` produces
after fusing the two `map`s). -/
theorem map_coerceAnchorCol_comp (idc : String) (rows : List Row) :
    rows.map (coerceAnchorCol idc ∘ coerceAnchorCol idc) =
      rows.map (coerceAnchorCol idc) := by
  rw [← List.map_map]
  exact map_coerceAnchorCol_idem idc rows

/-!  ## Lemmas about the batch writer -/

theorem numBatches_succ (n bs : Nat) (hbs : 0 < bs) (hn : 0 < n) :
    numBatches n bs = numBatches (n - bs) bs + 1 := by
  unfold numBatches
  rcases le_or_lt n bs with h | h
  · rw [show n + bs - 1 = (n - 1) + bs from by omega,
      Nat.add_div_right _ hbs, Nat.div_eq_of_lt (by omega),
      show n - bs = 0 from by omega,
      show 0 + bs - 1 = bs - 1 from by omega,
      Nat.div_eq_of_lt (by omega)]
  · rw [show n + bs - 1 = (n - 1) + bs from by omega,
      Nat.add_div_right _ hbs,
      show n - bs + bs - 1 = (n - bs - 1) + bs from by omega,
      Nat.add_div_right _ hbs,
      show n - 1 = (n - bs - 1) + bs from by omega,
      Nat.add_div_right _ hbs]

theorem batchesOf_nil (bs : Nat) : batchesOf [] bs = [] := by
  unfold batchesOf numBatches
  rcases bs with _ | b
  · rfl
  · rw [show (List.nil : List (List Val)).length = 0 from rfl,
      show 0 + (b + 1) - 1 = b from by omega,
      Nat.div_eq_of_lt (by omega)]
    rfl

/-- The batch list of nonempty data is its first `bs` tuples followed by
the batches of the rest: `range(0, n, bs)` unrolled once. -/
theorem batchesOf_cons (data : List (List Val)) (bs : Nat) (hbs : 0 < bs)
    (hd : data ≠ []) :
    batchesOf data bs = data.take bs :: batchesOf (data.drop bs) bs := by
  unfold batchesOf
  rw [List.length_drop,
    show numBatches data.length bs =
      numBatches (data.length - bs) bs + 1 from
      numBatches_succ data.length bs hbs (List.length_pos.mpr hd),
    List.range_succ_eq_map, List.map_cons, List.map_map]
  congr 1
  · simp
  · refine List.map_congr_left (fun k _ => ?_)
    simp only [Function.comp_apply]
    rw [List.drop_drop, show bs + k * bs = (k + 1) * bs from by ring]

theorem join_batchesOf (bs : Nat) (hbs : 0 < bs) :
    ∀ n (data : List (List Val)), data.length ≤ n →
      (batchesOf data bs).flatten = data := by
  intro n
  induction n with
  | zero =>
    intro data h
    have hdata : data = [] := by
      cases data with
      | nil => rfl
      | cons a t => simp at h
    rw [hdata, batchesOf_nil]
    rfl
  | succ n ih =>
    intro data h
    by_cases hd : data = []
    · rw [hd, batchesOf_nil]; rfl
    · rw [batchesOf_cons data bs hbs hd, List.flatten_cons,
        ih (data.drop bs) (by rw [List.length_drop]; omega),
        List.take_append_drop]

theorem join_batches1000 (data : List (List Val)) :
    (batchesOf data 1000).flatten = data :=
  join_batchesOf 1000 (by omega) data.length data le_rfl

/-- If the loop inside `engine.begin()` finishes without raising, the
pending transactional writes are exactly the initial pending plus every
batch, in order. -/
theorem execLoop_done_pending (failAt : Option Nat) :
    ∀ (bts : List (List (List Val))) (i : Nat) (pending : List (List Val))
      (total : Nat) (p : List (List Val)) (t : Nat),
      execLoop failAt i pending total bts = ExecResult.done p t →
      p = pending ++ bts.flatten := by
  intro bts
  induction bts with
  | nil =>
    intro i pending total p t h
    simp [execLoop] at h
    simp [← h.1]
  | cons b bs ih =>
    intro i pending total p t h
    by_cases hf : failAt = Option.some i
    · simp [execLoop, hf] at h
    · simp only [execLoop, hf, if_false] at h
      rw [ih (i + 1) (pending ++ b) (total + b.length) p t h,
        List.flatten_cons]
      simp

theorem execLoop_cons_ne (failAt : Option Nat) (i : Nat)
    (pending : List (List Val)) (total : Nat) (b : List (List Val))
    (bs : List (List (List Val))) (h : failAt ≠ Option.some i) :
    execLoop failAt i pending total (b :: bs) =
      execLoop failAt (i + 1) (pending ++ b) (total + b.length) bs := by
  simp [execLoop, h]

theorem execLoop_cons_eq (failAt : Option Nat) (i : Nat)
    (pending : List (List Val)) (total : Nat) (b : List (List Val))
    (bs : List (List (List Val))) (h : failAt = Option.some i) :
    execLoop failAt i pending total (b :: bs) = ExecResult.failed total := by
  simp [execLoop, h]

/-!  ## Claim C7 (text normalization) -/

/-- C7 counterexample: `_normalize_text` is not idempotent on every input.
On the string `"a ́ b"` (whose middle whitespace-separated word is a lone
combining mark) the first pass erases the mark, leaving two adjacent
spaces, and the second pass collapses them, so applying the function twice
differs from applying it once. -/
theorem normalize_text_not_idempotent_cex :
    _normalize_text (_normalize_text (Val.str sLoneMark) true) true ≠
      _normalize_text (Val.str sLoneMark) true := by decide

/-- Diacritic-stripping can also introduce whitespace rather than erase a
word: on `"a¨"` (U+00A8 decomposes to SPACE + combining mark) one pass
yields `"A "` and a second pass `"A"`, so a surviving-word condition alone
would not restore idempotence — the amended claim must also require that
no whitespace is introduced. -/
theorem normalize_text_spacing_not_idempotent :
    _normalize_text (Val.str sSpacing) true = Val.str [Ch.base 0, Ch.sp] ∧
    _normalize_text (_normalize_text (Val.str sSpacing) true) true ≠
      _normalize_text (Val.str sSpacing) true := by decide

/-- C7 (amended): `_normalize_text` is total, passes non-string values
(including `None`) through unchanged, and is idempotent on every value for
which each whitespace-separated word of the string, after decomposition
and diacritic-stripping (and uppercasing), is nonempty and contains no
whitespace character.  Outside that proviso idempotence fails: a word made
solely of combining marks is erased (leaving a doubled separator), and a
character such as U+00A8 whose decomposition contains a space introduces
new whitespace — in both cases after the collapse step already ran. -/
theorem normalize_text_idem_amended (v : Val)
    (h : ∀ w ∈ pyWords (strOf v),
      wordNorm w ≠ [] ∧ ∀ c ∈ wordNorm w, c.isSpace = false) :
    _normalize_text (_normalize_text v true) true = _normalize_text v true ∧
    (isStrVal v = false → ∀ b : Bool, _normalize_text v b = v) := by
  constructor
  · cases v with
    | str s =>
      show Val.str (normStr true (normStr true s)) = Val.str (normStr true s)
      exact congrArg Val.str (normStr_idem_of_words_survive s h)
    | num q => rfl
    | nan => rfl
    | ts d t => rfl
    | date d => rfl
    | none => rfl
  · intro hv b
    cases v with
    | str s => simp [isStrVal] at hv
    | num q => rfl
    | nan => rfl
    | ts d t => rfl
    | date d => rfl
    | none => rfl

/-- C7 witness: idempotence at the concrete messy string
`"  ángel  maximo "` and pass-through at the number 5. -/
theorem normalize_text_idem_amended_witness :
    _normalize_text (_normalize_text (Val.str sMessy) true) true =
      _normalize_text (Val.str sMessy) true ∧
    _normalize_text (Val.num 5) false = Val.num 5 :=
  ⟨(normalize_text_idem_amended (Val.str sMessy) (by decide)).1,
   (normalize_text_idem_amended (Val.num 5) (by decide)).2 rfl false⟩

/-!  ## Claim C3 (validator partition) -/

/-- C3: `validate_and_clean_data` partitions its input exactly.  The clean
output is precisely the issue-free records, unchanged and in input order;
the problematic output is precisely the annotated records with at least one
problematic field, in input order (indexed by input position); the two
output sizes add up to the input size (so together with the complementary
filters, every record lands in exactly one output); and a record has issues
precisely when one of its fields is NULL/None, NaN, or a blank string. -/
theorem validate_partition (rows : List Row) (sheet : String) :
    (validate_and_clean_data rows sheet).1 =
      rows.filter (fun r => (rowIssues r).isEmpty) ∧
    (validate_and_clean_data rows sheet).2 =
      ((List.enumFrom 0 rows).filter (fun p => !(rowIssues p.2).isEmpty)).map
        (fun p => mkProblem sheet p.1 p.2) ∧
    (validate_and_clean_data rows sheet).1.length +
        (validate_and_clean_data rows sheet).2.length = rows.length ∧
    (∀ r : Row, (rowIssues r = [] ↔ ∀ p ∈ r, issueOf p.2 = Option.none)) := by
  refine ⟨?_, ?_, ?_, rowIssues_eq_nil_iff⟩
  · rw [validate_and_clean_data, validateAux_eq]
  · rw [validate_and_clean_data, validateAux_eq]
  · rw [validate_and_clean_data, validateAux_eq]
    simp only [List.length_map]
    rw [length_filter_enumFrom (fun r => !(rowIssues r).isEmpty) rows 0]
    exact length_filter_not_add rows _

/-!  ## Claim C2 (duplicate-anchor tie-break) -/

/-- C2: when the stored anchor matches at one or more positions, the cut
point is the highest-index match (`matching_indices[-1]`), and the cut
step returns exactly the rows strictly after it, in original order. -/
theorem duplicate_anchor_tiebreak (rows : List Row) (idc : String) (q : Rat)
    (h : matchingIndices (rows.map (coerceAnchorCol idc)) idc q ≠ []) :
    ∃ m, (matchingIndices (rows.map (coerceAnchorCol idc)) idc q).getLast? =
        Option.some m ∧
      m ∈ matchingIndices (rows.map (coerceAnchorCol idc)) idc q ∧
      (∀ j ∈ matchingIndices (rows.map (coerceAnchorCol idc)) idc q, j ≤ m) ∧
      locate_cut rows idc (Option.some q) DbStatus.ok =
        LocateResult.ok ((rows.map (coerceAnchorCol idc)).drop (m + 1)) := by
  obtain ⟨m, hg, hm, hmax⟩ :=
    getLast?_max_of_pairwise_lt _ (matchingIndices_pairwise _ idc q) h
  exact ⟨m, hg, hm, hmax, by simp [locate_cut, hg]⟩

/-- C2 witness at the spec's concrete instance: anchors
`[1,2,3,42,5,6,7,42,9,10]` with stored anchor 42 matching at positions 3
and 7; the cut point resolves to 7 and the candidates are the rows from
position 8 on. -/
theorem duplicate_anchor_tiebreak_witness :
    matchingIndices (c2rows.map (coerceAnchorCol idColumn)) idColumn 42 = [3, 7] ∧
    locate_cut c2rows idColumn (Option.some 42) DbStatus.ok =
      LocateResult.ok ((c2rows.map (coerceAnchorCol idColumn)).drop 8) ∧
    (∃ m, (matchingIndices (c2rows.map (coerceAnchorCol idColumn)) idColumn 42).getLast? =
        Option.some m ∧
      m ∈ matchingIndices (c2rows.map (coerceAnchorCol idColumn)) idColumn 42 ∧
      (∀ j ∈ matchingIndices (c2rows.map (coerceAnchorCol idColumn)) idColumn 42, j ≤ m) ∧
      locate_cut c2rows idColumn (Option.some 42) DbStatus.ok =
        LocateResult.ok ((c2rows.map (coerceAnchorCol idColumn)).drop (m + 1))) :=
  ⟨by decide, by decide, duplicate_anchor_tiebreak c2rows idColumn 42 (by decide)⟩

/-!  ## Claim C8 (empty-store path) -/

/-- C8: with persisted state `empty`, the cut-locating step returns every
source row as an insertion candidate, unchanged and in original order,
without requiring any anchor match (whatever the stored last-anchor slot
holds). -/
theorem empty_state_all_candidates (rows : List Row) (idc : String)
    (lastId : Option Rat) :
    locate_cut rows idc lastId DbStatus.empty = LocateResult.ok rows := by
  cases lastId <;> rfl

/-!  ## Claim C4 (per-call batch atomicity) -/

/-- C4: every batch of one `insert_new_modified_records` call runs inside a
single shared transaction per statement kind, so the store never retains a
proper subset of a call's batches.  Either the call does not raise and
every batch of each nonempty input is committed; or it raises with the
store exactly as before the call (a failure in the insert transaction, or
no engine, rolls everything back and skips the update section); or it
raises with all insert tuples committed and no update tuples (a failure in
the update transaction rolls only that transaction back). -/
theorem batch_write_atomic (df_new df_modified : List Row) (tn idc : String)
    (db : DB) (sb : StoreBehavior) :
    ((insert_new_modified_records df_new df_modified tn idc db sb).raised = false ∧
       (insert_new_modified_records df_new df_modified tn idc db sb).db.inserted =
         db.inserted ++ (if df_new.isEmpty then [] else insertData df_new) ∧
       (insert_new_modified_records df_new df_modified tn idc db sb).db.updated =
         db.updated ++
           (if df_modified.isEmpty then [] else updateData df_modified idc)) ∨
    ((insert_new_modified_records df_new df_modified tn idc db sb).raised = true ∧
       (insert_new_modified_records df_new df_modified tn idc db sb).db = db) ∨
    ((insert_new_modified_records df_new df_modified tn idc db sb).raised = true ∧
       (insert_new_modified_records df_new df_modified tn idc db sb).db.inserted =
         db.inserted ++ insertData df_new ∧
       (insert_new_modified_records df_new df_modified tn idc db sb).db.updated =
         db.updated) := by
  by_cases heng : sb.engineOk = false
  · right; left
    simp [insert_new_modified_records, heng]
  · by_cases hnew : df_new.isEmpty
    · by_cases hmod : df_modified.isEmpty
      · left
        simp [insert_new_modified_records, heng, hnew, hmod]
      · cases hU : execLoop sb.failUpdateAt 0 [] 0
            (batchesOf (updateData df_modified idc) 1000) with
        | done pendU tU =>
          left
          have hpu : pendU = updateData df_modified idc := by
            have := execLoop_done_pending sb.failUpdateAt _ 0 [] 0 pendU tU hU
            simpa [join_batches1000] using this
          simp [insert_new_modified_records, heng, hnew, hmod, hU, hpu]
        | failed tU =>
          right; left
          simp [insert_new_modified_records, heng, hnew, hmod, hU]
    · cases hI : execLoop sb.failInsertAt 0 [] 0
          (batchesOf (insertData df_new) 1000) with
      | failed tI =>
        right; left
        simp [insert_new_modified_records, heng, hnew, hI]
      | done pendI tI =>
        have hpi : pendI = insertData df_new := by
          have := execLoop_done_pending sb.failInsertAt _ 0 [] 0 pendI tI hI
          simpa [join_batches1000] using this
        by_cases hmod : df_modified.isEmpty
        · left
          simp [insert_new_modified_records, heng, hnew, hmod, hI, hpi]
        · cases hU : execLoop sb.failUpdateAt 0 [] 0
              (batchesOf (updateData df_modified idc) 1000) with
          | done pendU tU =>
            left
            have hpu : pendU = updateData df_modified idc := by
              have := execLoop_done_pending sb.failUpdateAt _ 0 [] 0 pendU tU hU
              simpa [join_batches1000] using this
            simp [insert_new_modified_records, heng, hnew, hmod, hI, hU, hpi, hpu]
          | failed tU =>
            right; right
            simp [insert_new_modified_records, heng, hnew, hmod, hI, hU, hpi]

/-!  ## Claim C6 (round-trip comparison in change tracking) -/

/-- C6 counterexample: the source value `"ángel"` and the stored value
`"ANGEL"` are equal after normalization and differ only in raw
casing/diacritics, yet `track_changes` flags the record as modified — the
tracker compares raw values, normalizing only NULL-ish representations. -/
theorem track_changes_cex :
    _normalize_text (Val.str sAngelL) true = _normalize_text (Val.str sANGEL2) true ∧
    Val.str sAngelL ≠ Val.str sANGEL2 ∧
    track_changes [c6row] [(Val.num 1, c6bd)] idColumn = Option.some [c6row] :=
  ⟨by decide, by decide, by decide⟩

/-- C6 (amended): `track_changes` compares raw values after collapsing only
the NULL-ish representations (NaN/None) on both sides; a record whose
shared columns are all raw-equal after that collapse is not flagged as
modified, while any raw difference — including casing, whitespace or
diacritics that normalization would erase — flags it. -/
theorem track_changes_raw_equal_not_modified (r bd : Row) (idv : Val)
    (d : List (Val × Row)) (idc : String)
    (hid : (rowGet r idc).getD Val.none = idv)
    (hlk : lookupRec d idv = Option.some bd)
    (heq : ∀ c ∈ dfCols [r],
      nanToNone ((rowGet r c).getD Val.none) =
        nanToNone ((rowGet bd c).getD Val.none)) :
    track_changes [r] d idc = Option.some [] := by
  have hmod : rowModified (dfCols [r]) r bd = false := by
    unfold rowModified
    rw [List.any_eq_false]
    intro c hc
    simp [heq c hc]
  unfold track_changes collectModified
  rw [hid]
  simp [hlk, hmod, collectModified]

/-- C6 witness: a raw NaN field against a stored None field — raw-different
but equal after NULL normalization — is not flagged as modified. -/
theorem track_changes_raw_equal_witness :
    track_changes [c6rawRow] [(Val.num 2, c6rawBd)] idColumn = Option.some [] :=
  track_changes_raw_equal_not_modified c6rawRow c6rawBd (Val.num 2)
    [(Val.num 2, c6rawBd)] idColumn (by decide) (by decide) (by decide)

/-!  ## Projections of a run (the `finally` block reads the body state) -/

theorem export_g (g : Globals) (db : DB) (inp : Inputs) :
    (export_excel_to_postgres g db inp).g = (runBody g db inp).g := rfl

theorem export_db (g : Globals) (db : DB) (inp : Inputs) :
    (export_excel_to_postgres g db inp).db = (runBody g db inp).db := rfl

theorem export_success (g : Globals) (db : DB) (inp : Inputs) :
    (export_excel_to_postgres g db inp).report.success =
      (runBody g db inp).exitosa := rfl

theorem export_rows (g : Globals) (db : DB) (inp : Inputs) :
    (export_excel_to_postgres g db inp).report.rowsInserted =
      (runBody g db inp).rowsInserted := rfl

theorem export_errMsg (g : Globals) (db : DB) (inp : Inputs) :
    (export_excel_to_postgres g db inp).report.errMsg =
      (runBody g db inp).errMsg := rfl

theorem export_problematic (g : Globals) (db : DB) (inp : Inputs) :
    (export_excel_to_postgres g db inp).report.problematic =
      (runBody g db inp).g.problematic_records_global.getD [] := rfl

/-!  ## Claim C1 (anchor fail-closed) -/

/-- C1: in state `ok`, when no row's numerically-coerced anchor equals the
stored last anchor, the run fails with the anchor-not-found error, writes
nothing to the store, and reports the failure (and leaves the quarantine
slot untouched). -/
theorem anchor_fail_closed (g : Globals) (db : DB) (inp : Inputs) (q : Rat)
    (rows : List Row)
    (hsh : sheetRecognized inp.sheet = true)
    (hst : inp.dbStatus = DbStatus.ok)
    (hla : inp.lastTransferId = Option.some q)
    (hex : inp.excel = Option.some rows)
    (hne : rows ≠ [])
    (hcol : idColumn ∈ dfCols rows)
    (hmatch : matchingIndices (rows.map (coerceAnchorCol idColumn)) idColumn q
      = []) :
    (export_excel_to_postgres g db inp).db = db ∧
    (export_excel_to_postgres g db inp).report.success = false ∧
    (export_excel_to_postgres g db inp).report.errMsg =
      Option.some EtlError.anchorNotFound ∧
    (export_excel_to_postgres g db inp).report.rowsInserted = 0 ∧
    (export_excel_to_postgres g db inp).g = g := by
  have hloc : locate_cut (rows.map (coerceAnchorCol idColumn)) idColumn
      (Option.some q) DbStatus.ok =
      LocateResult.error EtlError.anchorNotFound := by
    simp [locate_cut, List.map_map, map_coerceAnchorCol_comp, hmatch]
  have hb : runBody g db inp =
      { exitosa := false, errMsg := Option.some EtlError.anchorNotFound
        rowsInserted := 0, g := g, db := db } := by
    simp [runBody, hsh, hst, hla, hex, hne, hcol, hloc]
  simp [export_excel_to_postgres, hb]

/-- C1 witness: stored anchor 999 in state `ok` against source anchors
`[1, 2]` — the run reports the anchor failure and the store is untouched. -/
theorem anchor_fail_closed_witness :
    (export_excel_to_postgres g0run db0run inpC1w).db = db0run ∧
    (export_excel_to_postgres g0run db0run inpC1w).report.success = false ∧
    (export_excel_to_postgres g0run db0run inpC1w).report.errMsg =
      Option.some EtlError.anchorNotFound ∧
    (export_excel_to_postgres g0run db0run inpC1w).report.rowsInserted = 0 ∧
    (export_excel_to_postgres g0run db0run inpC1w).g = g0run :=
  anchor_fail_closed g0run db0run inpC1w 999 [mkNumRow 1, mkNumRow 2]
    (by decide) (by decide) (by decide) (by decide) (by decide) (by decide)
    (by decide)

/-!  ## Claim C9 (reporting always happens) -/

/-- C9: every run — success, validation short-circuit, user cancellation,
or any caught failure — performs exactly one terminal action: sending the
status report assembled in the `finally` block.  No input reaches an
action list without the report. -/
theorem report_always_sent (g : Globals) (db : DB) (inp : Inputs) :
    (export_excel_to_postgres g db inp).actions =
      [Action.sendEmail (export_excel_to_postgres g db inp).report] := rfl

/-- A run whose store state query errors fails in its first steps: the body
leaves the globals and the store untouched and is not successful. -/
theorem runBody_db_error (g : Globals) (db : DB) (inp : Inputs)
    (h2 : inp.dbStatus = DbStatus.error) :
    (runBody g db inp).g = g ∧ (runBody g db inp).db = db ∧
    (runBody g db inp).exitosa = false := by
  by_cases hsh : sheetRecognized inp.sheet = false
  · simp [runBody, hsh]
  · have hsh2 : sheetRecognized inp.sheet = true := by
      cases hb : sheetRecognized inp.sheet with
      | false => exact absurd hb hsh
      | true => rfl
    simp [runBody, hsh2, h2]

/-!  ## Claim C10 (stale quarantine records leak across runs) -/

/-- C10: the quarantine slot is a process global that no run resets on
entry; if one run leaves quarantined records in it and the next run fails
before reaching its own validation step (here: the store state query
fails), the next run's failure report carries the previous run's
quarantined records, and the slot still holds them afterwards. -/
theorem stale_quarantine_leaks (g : Globals) (db : DB) (inp1 inp2 : Inputs)
    (probs : List ProblemRec)
    (h1 : (export_excel_to_postgres g db inp1).g.problematic_records_global =
      Option.some probs)
    (h2 : inp2.dbStatus = DbStatus.error) :
    (export_excel_to_postgres (export_excel_to_postgres g db inp1).g
        (export_excel_to_postgres g db inp1).db inp2).report.problematic =
      probs ∧
    (export_excel_to_postgres (export_excel_to_postgres g db inp1).g
        (export_excel_to_postgres g db inp1).db inp2).report.success = false ∧
    (export_excel_to_postgres (export_excel_to_postgres g db inp1).g
        (export_excel_to_postgres g db inp1).db
        inp2).g.problematic_records_global = Option.some probs := by
  obtain ⟨hgg, hdd, hee⟩ :=
    runBody_db_error (export_excel_to_postgres g db inp1).g
      (export_excel_to_postgres g db inp1).db inp2 h2
  refine ⟨?_, ?_, ?_⟩
  · show (runBody (export_excel_to_postgres g db inp1).g
        (export_excel_to_postgres g db inp1).db
        inp2).g.problematic_records_global.getD [] = probs
    rw [hgg, h1]
    rfl
  · show (runBody (export_excel_to_postgres g db inp1).g
        (export_excel_to_postgres g db inp1).db inp2).exitosa = false
    exact hee
  · show (runBody (export_excel_to_postgres g db inp1).g
        (export_excel_to_postgres g db inp1).db
        inp2).g.problematic_records_global = Option.some probs
    rw [hgg, h1]

/-- C10 witness: a first run that quarantines one record (all candidates
problematic) followed by a run whose store query fails — the second run's
report carries the first run's quarantined record. -/
theorem stale_quarantine_witness :
    (export_excel_to_postgres (export_excel_to_postgres g0run db0run inpQ1w).g
        (export_excel_to_postgres g0run db0run inpQ1w).db
        inpErrW).report.problematic = [mkProblem "COBRANZA" 0 badRowW] ∧
    (export_excel_to_postgres (export_excel_to_postgres g0run db0run inpQ1w).g
        (export_excel_to_postgres g0run db0run inpQ1w).db
        inpErrW).report.success = false ∧
    (export_excel_to_postgres (export_excel_to_postgres g0run db0run inpQ1w).g
        (export_excel_to_postgres g0run db0run inpQ1w).db
        inpErrW).g.problematic_records_global =
      Option.some [mkProblem "COBRANZA" 0 badRowW] :=
  stale_quarantine_leaks g0run db0run inpQ1w inpErrW
    [mkProblem "COBRANZA" 0 badRowW] (by decide) (by decide)

/-!  ## Claim C5 (partial-commit accounting on batch failure) -/

theorem validateAux_replicate (sheet : String) (r : Row)
    (hr : (rowIssues r).isEmpty = true) :
    ∀ n i, validateAux sheet i (List.replicate n r) = (List.replicate n r, []) := by
  intro n
  induction n with
  | zero => intro i; rfl
  | succ n ih =>
    intro i
    simp [List.replicate_succ, validateAux, hr, ih (i + 1)]

theorem c5_coerce : c5rows.map (coerceAnchorCol idColumn) = c5rows := by
  show (List.replicate 2500 c5row).map (coerceAnchorCol idColumn) = _
  rw [List.map_replicate,
    show coerceAnchorCol idColumn c5row = c5row from by decide]
  rfl

theorem c5_insertData :
    insertData c5rows = List.replicate 2500 [Val.num 1] := by
  unfold insertData preparePipeline _normalize_dataframe
    _convert_timestamp_to_date _clean_numeric_columns c5rows
  simp only [List.map_replicate]
  congr 1

theorem c5_length : c5rows.length = 2500 := by
  show (List.replicate 2500 c5row).length = 2500
  rw [List.length_replicate]

theorem c5_ne_nil : c5rows ≠ [] := by
  intro h
  have h2 := congrArg List.length h
  rw [c5_length] at h2
  simp at h2

theorem c5_exec_fails :
    execLoop (Option.some 1) 0 [] 0
      (batchesOf (List.replicate 2500 ([Val.num 1] : List Val)) 1000) =
      ExecResult.failed
        (0 + ((List.replicate 2500 ([Val.num 1] : List Val)).take 1000).length) := by
  have h1 : (List.replicate 2500 ([Val.num 1] : List Val)) ≠ [] := by
    intro h
    have h2 := congrArg List.length h
    rw [List.length_replicate] at h2
    simp at h2
  have h2 : (List.replicate 2500 ([Val.num 1] : List Val)).drop 1000 ≠ [] := by
    intro h
    have h3 := congrArg List.length h
    rw [List.length_drop, List.length_replicate] at h3
    simp at h3
  rw [batchesOf_cons _ _ (by omega) h1, batchesOf_cons _ _ (by omega) h2,
    execLoop_cons_ne _ _ _ _ _ _ (by decide)]
  exact execLoop_cons_eq _ _ _ _ _ _ rfl

theorem c5_call :
    insert_new_modified_records c5rows [] "tabla" idColumn db0run sbC5 =
      { db := db0run, raised := true } := by
  have hne : c5rows.isEmpty = false := rfl
  obtain ⟨t, hfail⟩ : ∃ t, execLoop (Option.some 1) 0 [] 0
      (batchesOf (insertData c5rows) 1000) = ExecResult.failed t :=
    ⟨_, by rw [c5_insertData]; exact c5_exec_fails⟩
  simp [insert_new_modified_records, sbC5, hne, hfail]

theorem c5_runBody :
    runBody g0run db0run inpC5 =
      { exitosa := false, errMsg := Option.some EtlError.writeFailure
        rowsInserted := 0
        g := { problematic_records_global := Option.some [] }
        db := db0run } := by
  have hval : validate_and_clean_data c5rows "COBRANZA" = (c5rows, []) := by
    show validateAux "COBRANZA" 0 (List.replicate 2500 c5row) = _
    rw [validateAux_replicate "COBRANZA" c5row (by decide) 2500 0]
    rfl
  simp [runBody, inpC5, show sheetRecognized "COBRANZA" = true from by decide,
    show dfCols c5rows = [idColumn] from rfl, c5_coerce, hval, c5_ne_nil,
    c5_call, locate_cut]

/-- C5 counterexample: given 2500 clean records and a forced failure on the
second batch (rows 1001-2000), the reported `rows_inserted` of the run is
0 — not the 1000 the claim states — and zero rows remain committed: the
whole insert call shares one transaction, so the failure on batch 1 rolls
back the already-executed batch 0 as well. -/
theorem partial_commit_cex :
    (export_excel_to_postgres g0run db0run inpC5).report.rowsInserted = 0 ∧
    (export_excel_to_postgres g0run db0run inpC5).report.rowsInserted ≠ 1000 ∧
    (export_excel_to_postgres g0run db0run inpC5).db.inserted = [] ∧
    (insert_new_modified_records c5rows [] "tabla" idColumn db0run
      sbC5).db.inserted = [] := by
  have h0 : (export_excel_to_postgres g0run db0run inpC5).report.rowsInserted
      = 0 := by
    rw [export_rows, c5_runBody]
  have hdb : (export_excel_to_postgres g0run db0run inpC5).db = db0run := by
    rw [export_db, c5_runBody]
  exact ⟨h0, by rw [h0]; omega, by rw [hdb]; rfl, by rw [c5_call]; rfl⟩

/-- C5 (amended): given 2500 clean records and a forced failure on the
second batch, the insert call raises, the orchestrator reports the run as
failed with a write failure, the reported `rows_inserted` is 0, and no row
of any batch remains committed (the single shared transaction rolls the
first batch back too). -/
theorem partial_commit_amended :
    (insert_new_modified_records c5rows [] "tabla" idColumn db0run
      sbC5).raised = true ∧
    (insert_new_modified_records c5rows [] "tabla" idColumn db0run
      sbC5).db = db0run ∧
    (export_excel_to_postgres g0run db0run inpC5).report.success = false ∧
    (export_excel_to_postgres g0run db0run inpC5).report.errMsg =
      Option.some EtlError.writeFailure ∧
    (export_excel_to_postgres g0run db0run inpC5).report.rowsInserted = 0 ∧
    (export_excel_to_postgres g0run db0run inpC5).db = db0run := by
  refine ⟨by rw [c5_call], by rw [c5_call], ?_, ?_, ?_, ?_⟩
  · rw [export_success, c5_runBody]
  · rw [export_errMsg, c5_runBody]
  · rw [export_rows, c5_runBody]
  · rw [export_db, c5_runBody]

end ETLSync












